import Mathlib

/-!
Shallow embedding of the CSR graph container of `src/runtime_lib/infra_gapbs/graph.h`
(GAP Benchmark Suite `CSRGraph`, as vendored by graphit), together with its
pull-direction segmentation subsystem, and proofs about that embedding.

Two complementary views of the container are embedded:

* `CSRGraphV` — a value-level view.  The C++ index arrays (`DestID_**`, one
  pointer per vertex into the flat neighbor array) are modelled as offset
  functions `Nat → Nat`; each array additionally carries an allocation address
  (`Arr`) so that pointer identity ("same storage, not a copy") is expressible.
* `CSRGraphP` — a pointer-level view used for the ownership/lifecycle
  operations (copy construction, move construction, move assignment,
  destruction).  Raw pointers are `Option Nat` (`none` is `nullptr`); the
  destructor is modelled as the list of addresses it frees.

The segment classes (`SegmentedGraph`, `GraphSegments`) live in
`segmentgraph.h`, which is not part of the sources here; their records and
primitive operations are modelled from the specification and marked as such.
-/

namespace Graphit

/-- Destination entry of a CSR neighbor array: the `DestID_` template argument
is either a bare `NodeID_` (unweighted instantiation) or a
`NodeWeight<NodeID_, WeightT_>` pair (weighted instantiation). -/
inductive GDest where
  | plain (v : Int)
  | weighted (v : Int) (w : Int)
deriving DecidableEq

/-- The bare vertex id of a destination entry (the `v` field of `NodeWeight`,
or the id itself when unweighted). -/
def GDest.vertexId : GDest → Int
  | .plain v => v
  | .weighted v _ => v

/-- `NodeWeight` from graph.h: a node id together with a weight. -/
structure NodeWeight where
  v : Int
  w : Int
deriving DecidableEq

/-- `NodeWeight::operator<`: `v == rhs.v ? w < rhs.w : v < rhs.v`. -/
def NodeWeight.ltB (a rhs : NodeWeight) : Bool :=
  if a.v = rhs.v then decide (a.w < rhs.w) else decide (a.v < rhs.v)

/-- `NodeWeight::operator==` (against another `NodeWeight`): compares only the
vertex components, the weights are not checked. -/
def NodeWeight.eqB (a rhs : NodeWeight) : Bool :=
  decide (a.v = rhs.v)

/-- `NodeWeight::operator==` against a bare `NodeID_`. -/
def NodeWeight.eqNodeB (a : NodeWeight) (rhs : Int) : Bool :=
  decide (a.v = rhs)

/-- A heap-allocated array value: its allocation address together with its
contents.  Two fields holding the same `Arr` model two pointers to the same
storage; equal contents at distinct addresses model copies. -/
structure Arr (α : Type) where
  addr : Nat
  data : α

/-- Value-level view of `CSRGraph`.  Index arrays are offset functions
(`out_index_[v]` in the C++ is a pointer into `out_neighbors_`; its offset from
`out_neighbors_` is the modelled value). -/
structure CSRGraphV where
  directed_ : Bool
  is_transpose_ : Bool
  num_nodes_ : Int
  num_edges_ : Int
  out_index_ : Arr (Nat → Nat)
  out_neighbors_ : Arr (List GDest)
  in_index_ : Arr (Nat → Nat)
  in_neighbors_ : Arr (List GDest)

/-- The undirected constructor
`CSRGraph(int64_t num_nodes, DestID_** index, DestID_* neighs)`:
both the in- and out-fields are set to the one index/neighbor pair, and
`num_edges_ = (out_index_[num_nodes_] - out_index_[0]) / 2` (truncating C++
integer division). -/
def CSRGraphV.mkUndirected (num_nodes : Nat) (index : Arr (Nat → Nat))
    (neighs : Arr (List GDest)) : CSRGraphV :=
  { directed_ := false
    is_transpose_ := false
    num_nodes_ := num_nodes
    out_index_ := index
    out_neighbors_ := neighs
    in_index_ := index
    in_neighbors_ := neighs
    num_edges_ := ((index.data num_nodes : Int) - (index.data 0 : Int)).tdiv 2 }

/-- The directed constructor
`CSRGraph(int64_t num_nodes, DestID_** out_index, DestID_* out_neighs,
DestID_** in_index, DestID_* in_neighs)`:
`num_edges_ = out_index_[num_nodes_] - out_index_[0]`, `is_transpose_ = false`. -/
def CSRGraphV.mkDirected (num_nodes : Nat) (out_index : Arr (Nat → Nat))
    (out_neighs : Arr (List GDest)) (in_index : Arr (Nat → Nat))
    (in_neighs : Arr (List GDest)) : CSRGraphV :=
  { directed_ := true
    is_transpose_ := false
    num_nodes_ := num_nodes
    out_index_ := out_index
    out_neighbors_ := out_neighs
    in_index_ := in_index
    in_neighbors_ := in_neighs
    num_edges_ := (out_index.data num_nodes : Int) - (out_index.data 0 : Int) }

/-- The directed constructor variant taking an explicit `is_transpose` flag. -/
def CSRGraphV.mkDirectedT (num_nodes : Nat) (out_index : Arr (Nat → Nat))
    (out_neighs : Arr (List GDest)) (in_index : Arr (Nat → Nat))
    (in_neighs : Arr (List GDest)) (is_transpose : Bool) : CSRGraphV :=
  { directed_ := true
    is_transpose_ := is_transpose
    num_nodes_ := num_nodes
    out_index_ := out_index
    out_neighbors_ := out_neighs
    in_index_ := in_index
    in_neighbors_ := in_neighs
    num_edges_ := (out_index.data num_nodes : Int) - (out_index.data 0 : Int) }

/-- `num_nodes()`. -/
def CSRGraphV.num_nodes (g : CSRGraphV) : Int := g.num_nodes_

/-- `num_edges()`. -/
def CSRGraphV.num_edges (g : CSRGraphV) : Int := g.num_edges_

/-- `num_edges_directed()`: `directed_ ? num_edges_ : 2*num_edges_`. -/
def CSRGraphV.num_edges_directed (g : CSRGraphV) : Int :=
  if g.directed_ then g.num_edges_ else 2 * g.num_edges_

/-- `out_degree(v) = out_index_[v+1] - out_index_[v]` (a pointer difference,
hence an `Int`). -/
def CSRGraphV.out_degree (g : CSRGraphV) (v : Nat) : Int :=
  (g.out_index_.data (v + 1) : Int) - (g.out_index_.data v : Int)

/-- `in_degree(v) = in_index_[v+1] - in_index_[v]`. -/
def CSRGraphV.in_degree (g : CSRGraphV) (v : Nat) : Int :=
  (g.in_index_.data (v + 1) : Int) - (g.in_index_.data v : Int)

/-- `in_neigh(d)`: the slice of `in_neighbors_` between `in_index_[d]` and
`in_index_[d+1]` (the `Neighborhood` iterator range). -/
def CSRGraphV.in_neigh (g : CSRGraphV) (d : Nat) : List GDest :=
  (g.in_neighbors_.data.drop (g.in_index_.data d)).take
    (g.in_index_.data (d + 1) - g.in_index_.data d)

/-- `Σ_{v ∈ [0, num_nodes)} out_degree(v)`. -/
def CSRGraphV.sumOutDegrees (g : CSRGraphV) : Int :=
  Finset.sum (Finset.range g.num_nodes_.toNat) (fun v => g.out_degree v)

/-! ## Pull-direction segmentation (`buildPullSegmentedGraphs`)

The partitioning entry point lives in graph.h; the segment container it
fills (`SegmentedGraph` of segmentgraph.h) is not among the sources, so a
segment is modelled from the spec as the list of inbound edges appended to
it, in fill order.  An inbound edge of destination `d` with in-neighbor `s`
is the pair `(d, s)`. -/

/-- Concatenation of the images of `f` over a list, in order (the edge order
produced by nested `for` loops). -/
def catMap (f : α → List β) : List α → List β
  | [] => []
  | a :: t => f a ++ catMap f t

/-- All inbound edges of the graph, in the iteration order of
`for (auto d : vertices()) for (auto s : in_neigh(d))`. -/
def CSRGraphV.inboundEdges (g : CSRGraphV) : List (Int × GDest) :=
  catMap (fun d => (g.in_neigh d).map (fun s => ((d : Int), s)))
    (List.range g.num_nodes_.toNat)

/-- `segmentRange = (num_nodes() + numSegments - 1) / numSegments`
(truncating C++ integer division). -/
def CSRGraphV.segmentRange (g : CSRGraphV) (numSegments : Int) : Int :=
  (g.num_nodes + numSegments - 1).tdiv numSegments

/-- The segment id computed for in-neighbor `s` in `buildPullSegmentedGraphs`:
`static_cast<NodeWeight<>>(s).v / segmentRange` when `DestID_` is
`NodeWeight<>`, `s / segmentRange` otherwise (both truncating divisions of the
bare vertex id). -/
def segId (segmentRange : Int) : GDest → Int
  | .weighted v _ => v.tdiv segmentRange
  | .plain v => v.tdiv segmentRange

/-- Modelled from the spec: `SegmentedGraph::addEdge(d, s)` (segmentgraph.h is
not among the sources) appends the inbound edge `(d, s)` to the segment's edge
storage, preserving the destination payload. -/
def addEdge (seg : List (Int × GDest)) (d : Int) (s : GDest) :
    List (Int × GDest) :=
  seg ++ [(d, s)]

/-- One step of the fill pass:
`graphSegments->getSegmentedGraph(segment_id)->addEdge(d, s)` applied to the
family of segments, indexed by segment id. -/
def fillEdge (segmentRange : Int) (segs : Int → List (Int × GDest)) (d : Int)
    (s : GDest) : Int → List (Int × GDest) :=
  fun j => if j = segId segmentRange s then addEdge (segs j) d s else segs j

/-- Modelled from the spec: `SegmentedGraph::countEdge(d)` increments the
segment's per-destination edge counter.  One step of the counting pass,
applied to the family of per-segment counters. -/
def countEdge (segmentRange : Int) (cnts : Int → Int → Nat) (d : Int)
    (s : GDest) : Int → Int → Nat :=
  fun j => if j = segId segmentRange s then
    fun e => if e = d then cnts j e + 1 else cnts j e
  else cnts j

/-- The counting pass of `buildPullSegmentedGraphs(label, numSegments)`:
for every vertex `d` and every inbound neighbor `s`, the segment numbered
`segment_id` counts one more edge for `d`. -/
def CSRGraphV.buildPullCounts (g : CSRGraphV) (numSegments : Int) :
    Int → Int → Nat :=
  (List.range g.num_nodes_.toNat).foldl
    (fun cnts d => (g.in_neigh d).foldl
      (fun acc s => countEdge (g.segmentRange numSegments) acc (d : Int) s)
      cnts)
    (fun _ _ => 0)

/-- The fill pass of `buildPullSegmentedGraphs(label, numSegments)`: after the
counting and allocation passes (allocation only sizes the arrays, which the
list model leaves implicit), every inbound edge `(d, s)` is appended to the
segment numbered `segment_id`.  The result maps each segment id to the edges
stored in that segment, in fill order. -/
def CSRGraphV.buildPullSegmentedGraphs (g : CSRGraphV) (numSegments : Int) :
    Int → List (Int × GDest) :=
  (List.range g.num_nodes_.toNat).foldl
    (fun segs d => (g.in_neigh d).foldl
      (fun acc s => fillEdge (g.segmentRange numSegments) acc (d : Int) s)
      segs)
    (fun _ => [])

/-- The 4-vertex directed cycle 0→1, 1→2, 2→3, 3→0 of the spec's scenario:
`in_neigh(0) = [3]`, `in_neigh(1) = [0]`, `in_neigh(2) = [1]`,
`in_neigh(3) = [2]`. -/
def cycle4 : CSRGraphV :=
  CSRGraphV.mkDirected 4
    ⟨0, fun v => v⟩ ⟨1, [GDest.plain 1, GDest.plain 2, GDest.plain 3, GDest.plain 0]⟩
    ⟨2, fun v => v⟩ ⟨3, [GDest.plain 3, GDest.plain 0, GDest.plain 1, GDest.plain 2]⟩

/-- An undirected container whose index spans an odd number of stored
destination entries (a self-loop stored once): 1 vertex, offsets 0 and 1. -/
def und1 : CSRGraphV :=
  CSRGraphV.mkUndirected 1 ⟨0, fun v => v⟩ ⟨1, [GDest.plain 0]⟩

/-- An undirected container with symmetric storage: 2 vertices joined by one
edge stored in both directions (even index span). -/
def und2 : CSRGraphV :=
  CSRGraphV.mkUndirected 2 ⟨0, fun v => v⟩ ⟨1, [GDest.plain 1, GDest.plain 0]⟩

/-! ## Segment records and their binary (de)serialization

`SegmentedGraph` itself lives in segmentgraph.h, which is not among the
sources; its record shape is modelled from the spec.  The store and load
passes below follow the `fwrite`/`fread` sequences of
`buildPullSegmentedGraphs` in graph.h (the `STORESEG` and `LOADSEG` paths),
which are in the sources. -/

/-- Modelled from the spec: the `SegmentedGraph` record of segmentgraph.h —
`numVertices`, `numEdges`, the vertex-id array `graphId`, the
edge-destination array `edgeArray`, and the offset array `vertexArray` of
length `numVertices + 1`. -/
structure SegmentedGraph where
  numVertices : Nat
  numEdges : Nat
  graphId : List Int
  edgeArray : List GDest
  vertexArray : List Int
deriving DecidableEq

/-- A fixed-width word of the segment file.  Each constructor stands for the
native-endian fixed-width encoding of one element of the corresponding field
(a count, a vertex id, an edge destination, or a 64-bit offset); byte-level
encoding is abstracted, the round-trip of a single fixed-width element being
the identity. -/
inductive FWord where
  | cnt (n : Nat)
  | vid (x : Int)
  | dst (d : GDest)
  | off (x : Int)
deriving DecidableEq

/-- The `STORESEG` path of `buildPullSegmentedGraphs` for one segment:
`fwrite` of `numVertices`, `numEdges`, then `numVertices` vertex ids,
`numEdges` edge destinations, and `numVertices + 1` offsets, in that exact
order with no padding or header. -/
def storeSegment (sg : SegmentedGraph) : List FWord :=
  [FWord.cnt sg.numVertices, FWord.cnt sg.numEdges]
    ++ (sg.graphId.take sg.numVertices).map FWord.vid
    ++ (sg.edgeArray.take sg.numEdges).map FWord.dst
    ++ (sg.vertexArray.take (sg.numVertices + 1)).map FWord.off

/-- Reading back one vertex id. -/
def readVid : FWord → Option Int
  | .vid x => some x
  | _ => none

/-- Reading back one edge destination. -/
def readDst : FWord → Option GDest
  | .dst d => some d
  | _ => none

/-- Reading back one offset. -/
def readOff : FWord → Option Int
  | .off x => some x
  | _ => none

/-- The `LOADSEG` path of `buildPullSegmentedGraphs` for one segment:
`fread` of `numVertices` and `numEdges`, allocation of the arrays at those
sizes (`sg->allocate(i)`, modelled from the spec), then `fread` of the three
arrays at exactly those lengths, in the same order as the store path.
`none` models a failed or short read. -/
def loadSegment (f : List FWord) : Option SegmentedGraph :=
  match f with
  | FWord.cnt nv :: FWord.cnt ne :: rest =>
    match (rest.take nv).mapM readVid,
        ((rest.drop nv).take ne).mapM readDst,
        (((rest.drop nv).drop ne).take (nv + 1)).mapM readOff with
    | some gid, some ea, some va =>
      if gid.length = nv ∧ ea.length = ne ∧ va.length = nv + 1 then
        some { numVertices := nv, numEdges := ne,
               graphId := gid, edgeArray := ea, vertexArray := va }
      else none
    | _, _, _ => none
  | _ => none

/-! ## The segment catalog (`label_to_segment`) and its lookups

`label_to_segment` is a `std::map<std::string, GraphSegments*>`, modelled as
an association list from labels to nullable registry addresses.  A registry
address indexes a registry heap. -/

/-- A raw pointer: `none` is `nullptr`. -/
abbrev Ptr := Option Nat

/-- Modelled from the spec: the `GraphSegments` registry of segmentgraph.h —
it owns `numSegments` segments. -/
structure GraphSegmentsRec where
  numSegments : Int
  segments : List SegmentedGraph
deriving DecidableEq

/-- Modelled from the spec: `GraphSegments::getSegmentedGraph(id)` returns
the segment at index `id` of the registry. -/
def GraphSegmentsRec.getSegment (r : GraphSegmentsRec) (id : Int) :
    Option SegmentedGraph :=
  r.segments.get? id.toNat

/-- The outcome of a catalog lookup operation: either a value is returned to
the caller, or the operation dereferences a null registry pointer —
undefined behavior (a crash), not a value or error signal the caller
receives. -/
inductive LookupOutcome (α : Type) where
  | ok (a : α)
  | nullDeref
deriving DecidableEq

/-- `std::map::operator[]`: returns the mapped value for the key, after
default-inserting a value-initialized entry (`nullptr` for a pointer mapped
type) when the key is absent.  Returns the mapped pointer and the updated
map. -/
def mapIndex (cat : List (String × Ptr)) (label : String) :
    Ptr × List (String × Ptr) :=
  match cat.find? (fun p => p.1 == label) with
  | some p => (p.2, cat)
  | none => (none, cat ++ [(label, none)])

/-- `getNumSegments(label)`: `label_to_segment[label]->numSegments`.  The
`->` on the pointer produced by `operator[]` dereferences it; on a
default-inserted or null entry this is a null-pointer dereference. -/
def getNumSegments (regHeap : Nat → GraphSegmentsRec)
    (cat : List (String × Ptr)) (label : String) :
    LookupOutcome Int × List (String × Ptr) :=
  match mapIndex cat label with
  | (some a, cat2) => (LookupOutcome.ok (regHeap a).numSegments, cat2)
  | (none, cat2) => (LookupOutcome.nullDeref, cat2)

/-- `getSegmentedGraph(label, id)`:
`label_to_segment[label]->getSegmentedGraph(id)`. -/
def getSegmentedGraph (regHeap : Nat → GraphSegmentsRec)
    (cat : List (String × Ptr)) (label : String) (id : Int) :
    LookupOutcome (Option SegmentedGraph) × List (String × Ptr) :=
  match mapIndex cat label with
  | (some a, cat2) => (LookupOutcome.ok ((regHeap a).getSegment id), cat2)
  | (none, cat2) => (LookupOutcome.nullDeref, cat2)

/-! ## Pointer-level view: ownership and lifecycle

`CSRGraphP` records exactly the raw members of `CSRGraph`.  C++ members that
a constructor's initializer list omits are left uninitialized (indeterminate)
for raw members, or default-constructed for `std::map`; indeterminate members
are modelled as explicit `junk` arguments of the constructor functions.
Destruction is modelled as the list of addresses the destructor frees. -/

structure CSRGraphP where
  is_transpose_ : Bool
  directed_ : Bool
  num_nodes_ : Int
  num_edges_ : Int
  out_index_ : Ptr
  out_neighbors_ : Ptr
  in_index_ : Ptr
  in_neighbors_ : Ptr
  flags_ : Ptr
  offsets_ : Ptr
  label_to_segment : List (String × Ptr)
  destructor_free : Bool
deriving DecidableEq

/-- `num_nodes()`. -/
def CSRGraphP.num_nodes (g : CSRGraphP) : Int := g.num_nodes_

/-- `num_edges()`. -/
def CSRGraphP.num_edges (g : CSRGraphP) : Int := g.num_edges_

/-- The default constructor `CSRGraph()`: counts set to `-1`, all listed
pointers null, `destructor_free` true.  `offsets_` is absent from the
initializer list and is left uninitialized (`junkOffsets`); the catalog map
is default-constructed empty. -/
def CSRGraphP.mkDefault (junkOffsets : Ptr) : CSRGraphP :=
  { directed_ := false
    num_nodes_ := -1
    num_edges_ := -1
    out_index_ := none
    out_neighbors_ := none
    in_index_ := none
    in_neighbors_ := none
    flags_ := none
    is_transpose_ := false
    destructor_free := true
    offsets_ := junkOffsets
    label_to_segment := [] }

/-- `ReleaseResources()`: the addresses freed — nothing when not owning;
otherwise `out_index_`, `out_neighbors_`, for a directed graph the in-arrays
when non-null and not pointer-identical to the out-arrays, `flags_`, and
every registry of the catalog (`delete` of a null registry pointer frees
nothing).  `offsets_` is never freed here. -/
def CSRGraphP.releaseResources (g : CSRGraphP) : List Nat :=
  if ¬g.destructor_free then []
  else
    (match g.out_index_ with | some a => [a] | none => [])
      ++ (match g.out_neighbors_ with | some a => [a] | none => [])
      ++ (if g.directed_ then
            (match g.in_index_ with
              | some a => if g.in_index_ = g.out_index_ then [] else [a]
              | none => [])
              ++ (match g.in_neighbors_ with
                | some a => if g.in_neighbors_ = g.out_neighbors_ then [] else [a]
                | none => [])
          else [])
      ++ (match g.flags_ with | some a => [a] | none => [])
      ++ g.label_to_segment.filterMap (fun p => p.2)

/-- `~CSRGraph()`: frees nothing when `destructor_free` is false or
`is_transpose_` is true, else whatever `ReleaseResources()` frees. -/
def CSRGraphP.destruct (g : CSRGraphP) : List Nat :=
  if ¬g.destructor_free then []
  else if ¬g.is_transpose_ then g.releaseResources
  else []

/-- The copy constructor `CSRGraph(CSRGraph&)`: the scalar fields and the
four array pointers are copied, `is_transpose_` is set to false and
`destructor_free` to false (the copy takes no ownership); `flags_` and
`offsets_` are absent from the initializer list (uninitialized), and the
catalog map is default-constructed empty.  The source is passed by non-const
reference but left unmodified (the resetting statements are commented out);
the result is the pair (copy, source after the call). -/
def CSRGraphP.copyConstruct (other : CSRGraphP) (junkFlags junkOffsets : Ptr) :
    CSRGraphP × CSRGraphP :=
  ({ directed_ := other.directed_
     num_nodes_ := other.num_nodes_
     num_edges_ := other.num_edges_
     out_index_ := other.out_index_
     out_neighbors_ := other.out_neighbors_
     in_index_ := other.in_index_
     in_neighbors_ := other.in_neighbors_
     is_transpose_ := false
     destructor_free := false
     flags_ := junkFlags
     offsets_ := junkOffsets
     label_to_segment := [] }, other)

/-- The move constructor `CSRGraph(CSRGraph&&)`: the scalar fields, the four
array pointers and `destructor_free` are taken from the source,
`is_transpose_` is set to false; `flags_`, `offsets_` are absent from the
initializer list (uninitialized) and the catalog map is default-constructed
empty.  The body then nulls the source's counts and pointer members (but not
its `destructor_free`, `is_transpose_`, `directed_` or catalog).  The result
is the pair (destination, moved-from source). -/
def CSRGraphP.moveConstruct (other : CSRGraphP) (junkFlags junkOffsets : Ptr) :
    CSRGraphP × CSRGraphP :=
  ({ directed_ := other.directed_
     num_nodes_ := other.num_nodes_
     num_edges_ := other.num_edges_
     out_index_ := other.out_index_
     out_neighbors_ := other.out_neighbors_
     in_index_ := other.in_index_
     in_neighbors_ := other.in_neighbors_
     is_transpose_ := false
     destructor_free := other.destructor_free
     flags_ := junkFlags
     offsets_ := junkOffsets
     label_to_segment := [] },
   { other with
     num_edges_ := -1
     num_nodes_ := -1
     out_index_ := none
     out_neighbors_ := none
     in_index_ := none
     in_neighbors_ := none
     flags_ := none
     offsets_ := none })

/-- The move assignment `operator=(CSRGraph&&)` for distinct objects: the
destination first releases its resources when it is an owning non-transpose
instance, then takes the source's scalar fields, array pointers and
`destructor_free`; the destination's `flags_`, `offsets_`, `is_transpose_`
and catalog are not assigned and keep their prior values; the source's counts
and pointer members are nulled (its `destructor_free`, flags and catalog are
untouched).  The result is (destination after, source after, addresses the
assignment freed). -/
def CSRGraphP.moveAssign (this_ other : CSRGraphP) :
    CSRGraphP × CSRGraphP × List Nat :=
  let freed := if ¬this_.is_transpose_ ∧ this_.destructor_free
    then this_.releaseResources else []
  ({ this_ with
     directed_ := other.directed_
     num_edges_ := other.num_edges_
     num_nodes_ := other.num_nodes_
     out_index_ := other.out_index_
     out_neighbors_ := other.out_neighbors_
     in_index_ := other.in_index_
     in_neighbors_ := other.in_neighbors_
     destructor_free := other.destructor_free },
   { other with
     num_edges_ := -1
     num_nodes_ := -1
     out_index_ := none
     out_neighbors_ := none
     in_index_ := none
     in_neighbors_ := none
     flags_ := none
     offsets_ := none },
   freed)

/-- A concrete owning directed container whose segment catalog holds one
registry (at address 7). -/
def gEx : CSRGraphP :=
  { directed_ := true
    num_nodes_ := 4
    num_edges_ := 4
    out_index_ := some 1
    out_neighbors_ := some 2
    in_index_ := some 3
    in_neighbors_ := some 4
    flags_ := some 5
    offsets_ := some 6
    is_transpose_ := false
    destructor_free := true
    label_to_segment := [("scheme", some 7)] }

/-! ## Helper lemmas -/

theorem catMap_append (f : α → List β) (l₁ l₂ : List α) :
    catMap f (l₁ ++ l₂) = catMap f l₁ ++ catMap f l₂ := by
  induction l₁ with
  | nil => rfl
  | cons a t ih => simp [catMap, ih]

theorem catMap_congr {f g : α → List β} {l : List α}
    (h : ∀ a ∈ l, f a = g a) : catMap f l = catMap g l := by
  induction l with
  | nil => rfl
  | cons a t ih =>
    simp only [catMap, h a (List.mem_cons_self a t),
      ih (fun a ha => h a (List.mem_cons_of_mem _ ha))]

theorem filter_catMap (p : β → Bool) (F : α → List β) (l : List α) :
    (catMap F l).filter p = catMap (fun a => (F a).filter p) l := by
  induction l with
  | nil => rfl
  | cons a t ih => simp [catMap, List.filter_append, ih]

theorem foldl_fillEdge (r : Int) (d : Int) (ss : List GDest)
    (segs : Int → List (Int × GDest)) (j : Int) :
    (ss.foldl (fun acc s => fillEdge r acc d s) segs) j
      = segs j
        ++ (ss.filter (fun s => decide (segId r s = j))).map (fun s => (d, s)) := by
  induction ss generalizing segs with
  | nil => simp
  | cons s t ih =>
    simp only [List.foldl_cons, ih, List.filter_cons]
    by_cases h : segId r s = j
    · simp [fillEdge, addEdge, h]
    · have h2 : decide (segId r s = j) = false := by simpa using h
      have h3 : ¬(j = segId r s) := fun hj => h hj.symm
      simp [fillEdge, h2, h3]

theorem foldl_fill_outer (g : CSRGraphV) (r : Int) (ds : List Nat)
    (segs : Int → List (Int × GDest)) (j : Int) :
    (ds.foldl
      (fun segs d => (g.in_neigh d).foldl
        (fun acc s => fillEdge r acc (d : Int) s) segs)
      segs) j
      = segs j
        ++ catMap
          (fun d => ((g.in_neigh d).filter (fun s => decide (segId r s = j))).map
            (fun s => ((d : Int), s)))
          ds := by
  induction ds generalizing segs with
  | nil => simp [catMap]
  | cons d t ih =>
    simp only [List.foldl_cons, ih, foldl_fillEdge, catMap, List.append_assoc]

theorem buildPull_eq_filter (g : CSRGraphV) (k : Int) (j : Int) :
    g.buildPullSegmentedGraphs k j
      = g.inboundEdges.filter
          (fun e => decide (segId (g.segmentRange k) e.2 = j)) := by
  unfold CSRGraphV.buildPullSegmentedGraphs CSRGraphV.inboundEdges
  rw [foldl_fill_outer, filter_catMap]
  simp only [List.nil_append]
  exact catMap_congr (fun d _ => (List.filter_map _ _).symm ▸ rfl)

theorem catMap_constNil (l : List α) :
    catMap (fun _ => ([] : List β)) l = [] := by
  induction l with
  | nil => rfl
  | cons a t ih => simp [catMap, ih]

theorem catMap_range_update (x : α) (f : Nat → List α) (k j : Nat)
    (hj : j < k) :
    (catMap (fun i => if i = j then x :: f i else f i) (List.range k)).Perm
      (x :: catMap f (List.range k)) := by
  induction k with
  | zero => omega
  | succ k ih =>
    rw [List.range_succ, catMap_append, catMap_append]
    by_cases hk : j = k
    · subst hk
      have h1 : catMap (fun i => if i = j then x :: f i else f i)
          (List.range j) = catMap f (List.range j) :=
        catMap_congr (fun i hi => by
          have : i ≠ j := Nat.ne_of_lt (List.mem_range.mp hi)
          simp [this])
      rw [h1]
      simp only [catMap, if_pos rfl, List.append_nil]
      exact List.perm_middle
    · have hjk : j < k := by omega
      have hkj : ¬(k = j) := fun h => hk h.symm
      have h2 : catMap (fun i => if i = j then x :: f i else f i) [k]
          = catMap f [k] := by simp [catMap, hkj]
      rw [h2]
      exact (ih hjk).append_right _

theorem perm_partition_int (key : α → Int) (k : Nat) (es : List α)
    (h : ∀ e ∈ es, ∃ j : Nat, j < k ∧ key e = (j : Int)) :
    (catMap (fun i : Nat => es.filter (fun e => decide (key e = (i : Int))))
      (List.range k)).Perm es := by
  induction es with
  | nil => simp [List.filter_nil, catMap_constNil]
  | cons e t ih =>
    obtain ⟨j, hjk, hkey⟩ := h e (List.mem_cons_self e t)
    have step : ∀ i ∈ List.range k,
        (e :: t).filter (fun x => decide (key x = (i : Int)))
          = (if i = j then e :: t.filter (fun x => decide (key x = (i : Int)))
            else t.filter (fun x => decide (key x = (i : Int)))) := by
      intro i _
      by_cases hij : i = j
      · subst hij
        simp [List.filter_cons, hkey]
      · have hji : ¬((j : Int) = (i : Int)) := by omega
        simp [List.filter_cons, hkey, hji, hij]
    rw [catMap_congr step]
    exact (catMap_range_update e _ k j hjk).trans
      ((ih (fun x hx => h x (List.mem_cons_of_mem _ hx))).cons e)

theorem segId_eq_vertexId_tdiv (r : Int) (s : GDest) :
    segId r s = s.vertexId.tdiv r := by
  cases s <;> rfl

theorem tdiv_ceil_bounds (n k : Int) (hn : 0 ≤ n) (hk : 1 ≤ k) :
    n ≤ k * ((n + k - 1).tdiv k) ∧ k * ((n + k - 1).tdiv k - 1) < n := by
  have h0 : (0 : Int) ≤ n + k - 1 := by omega
  have h1 : (0 : Int) ≤ k := by omega
  rw [Int.tdiv_eq_ediv h0 h1]
  have hmod0 : 0 ≤ (n + k - 1) % k := Int.emod_nonneg _ (by omega)
  have hmod1 : (n + k - 1) % k < k := Int.emod_lt_of_pos _ (by omega)
  have hdm := Int.ediv_add_emod (n + k - 1) k
  constructor <;> nlinarith [hdm, hmod0, hmod1]

theorem segmentRange_pos (n k : Int) (hn : 1 ≤ n) (hk : 1 ≤ k) :
    1 ≤ (n + k - 1).tdiv k := by
  have h := (tdiv_ceil_bounds n k (by omega) hk).1
  nlinarith [h]

theorem tdiv_key_bounds (n k id : Int) (hk : 1 ≤ k) (h0 : 0 ≤ id)
    (hlt : id < n) :
    0 ≤ id.tdiv ((n + k - 1).tdiv k) ∧ id.tdiv ((n + k - 1).tdiv k) < k := by
  have hn : 1 ≤ n := by omega
  have hr : 1 ≤ (n + k - 1).tdiv k := segmentRange_pos n k hn hk
  rw [Int.tdiv_eq_ediv h0 (by omega)]
  refine ⟨Int.ediv_nonneg h0 (by omega), ?_⟩
  rw [Int.ediv_lt_iff_lt_mul (by omega)]
  have := (tdiv_ceil_bounds n k (by omega) hk).1
  nlinarith

theorem tdiv_eq_fdiv_of_nonneg (a b : Int) (ha : 0 ≤ a) (hb : 0 ≤ b) :
    a.tdiv b = a.fdiv b := by
  rw [Int.tdiv_eq_ediv ha hb, Int.fdiv_eq_ediv _ hb]

theorem sumOutDegrees_telescope (g : CSRGraphV) :
    g.sumOutDegrees = (g.out_index_.data g.num_nodes_.toNat : Int)
      - (g.out_index_.data 0 : Int) := by
  unfold CSRGraphV.sumOutDegrees CSRGraphV.out_degree
  exact Finset.sum_range_sub (fun v => (g.out_index_.data v : Int)) _

/-! ## Claim theorems -/

/-- C1: for every graph and every inbound edge with source `s` and
destination `d`, `buildPullSegmentedGraphs(label, numSegments)` places that
edge in the segment numbered `floor(id(s) / segmentRange)`, where
`segmentRange = ceil(num_nodes / numSegments)` (characterized here by
`num_nodes ≤ numSegments * segmentRange` and
`numSegments * (segmentRange - 1) < num_nodes`) and `id(s)` is the bare
vertex id even when destinations carry weights; in particular, for the
4-vertex directed cycle partitioned into 2 segments, the edge 3→0 lands in
segment 1 although its destination 0 lies in segment 0's vertex range
(destination segment number 0). -/
theorem buildPull_segment_of_inbound_edge (g : CSRGraphV) (k : Int)
    (hk : 1 ≤ k) (hn : 0 ≤ g.num_nodes_)
    (hid : ∀ e ∈ g.inboundEdges, 0 ≤ (e.2).vertexId) :
    (∀ e ∈ g.inboundEdges,
      e ∈ g.buildPullSegmentedGraphs k
        ((e.2).vertexId.fdiv (g.segmentRange k)))
    ∧ g.num_nodes_ ≤ k * g.segmentRange k
    ∧ k * (g.segmentRange k - 1) < g.num_nodes_
    ∧ (0, GDest.plain 3) ∈ cycle4.buildPullSegmentedGraphs 2 1
    ∧ (0, GDest.plain 3) ∉ cycle4.buildPullSegmentedGraphs 2 0
    ∧ Int.tdiv (GDest.plain 0).vertexId (cycle4.segmentRange 2) = 0 := by
  have hr : g.segmentRange k = (g.num_nodes_ + k - 1).tdiv k := rfl
  have hr0 : 0 ≤ g.segmentRange k := by
    rw [hr, Int.tdiv_eq_ediv (by omega) (by omega)]
    exact Int.ediv_nonneg (by omega) (by omega)
  refine ⟨?_, ?_, ?_, by decide, by decide, by decide⟩
  · intro e he
    rw [buildPull_eq_filter]
    refine List.mem_filter.mpr ⟨he, ?_⟩
    simp only [decide_eq_true_eq]
    rw [segId_eq_vertexId_tdiv]
    exact tdiv_eq_fdiv_of_nonneg _ _ (hid e he) hr0
  · rw [hr]
    exact (tdiv_ceil_bounds g.num_nodes_ k hn hk).1
  · rw [hr]
    exact (tdiv_ceil_bounds g.num_nodes_ k hn hk).2

/-- Witness for C1: in the 4-vertex cycle split into 2 segments, the inbound
edge (destination 0, source 3) is stored in the segment
`floor(id(3) / segmentRange)`. -/
theorem buildPull_segment_of_inbound_edge_witness :
    (0, GDest.plain 3) ∈ cycle4.buildPullSegmentedGraphs 2
      ((GDest.plain 3).vertexId.fdiv (cycle4.segmentRange 2)) :=
  (buildPull_segment_of_inbound_edge cycle4 2 (by decide) (by decide)
    (by decide)).1 (0, GDest.plain 3) (by decide)

/-- C2 counterexample: the segment an edge is assigned to is not determined
by `destination_id / segmentRange`: in the 4-vertex cycle with 2 segments,
the inbound edge with destination 0 and source 3 is stored in segment 1 and
not in segment `destination_id / segmentRange = 0 / 2 = 0`. -/
theorem buildPull_not_destination_keyed :
    (0, GDest.plain 3) ∈ cycle4.buildPullSegmentedGraphs 2 1
    ∧ (0, GDest.plain 3) ∉ cycle4.buildPullSegmentedGraphs 2 0
    ∧ Int.tdiv 0 (cycle4.segmentRange 2) = 0 := by decide

/-- C2 (amended): for every graph whose inbound sources lie in
`[0, num_nodes)` and every segment count ≥ 1, the edges stored across the
`numSegments` segments are a permutation of the full inbound edge list (the
multiset union equals the inbound edge set), every edge lies in exactly one
segment, and the segment holding an edge is determined solely by
`source_id / segmentRange` (not by the destination id). -/
theorem buildPull_partition_by_source (g : CSRGraphV) (k : Int) (hk : 1 ≤ k)
    (hid : ∀ e ∈ g.inboundEdges,
      0 ≤ (e.2).vertexId ∧ (e.2).vertexId < g.num_nodes_) :
    (catMap (fun i : Nat => g.buildPullSegmentedGraphs k (i : Int))
      (List.range k.toNat)).Perm g.inboundEdges
    ∧ (∀ e (i j : Int), e ∈ g.buildPullSegmentedGraphs k i →
        e ∈ g.buildPullSegmentedGraphs k j → i = j)
    ∧ (∀ i : Int, g.buildPullSegmentedGraphs k i
        = g.inboundEdges.filter
          (fun e => decide ((e.2).vertexId.tdiv (g.segmentRange k) = i))) := by
  have hr : g.segmentRange k = (g.num_nodes_ + k - 1).tdiv k := rfl
  refine ⟨?_, ?_, ?_⟩
  · have hstep : catMap
        (fun i : Nat => g.buildPullSegmentedGraphs k (i : Int))
        (List.range k.toNat)
        = catMap (fun i : Nat => g.inboundEdges.filter
            (fun e => decide (segId (g.segmentRange k) e.2 = (i : Int))))
          (List.range k.toNat) :=
      catMap_congr (fun i _ => buildPull_eq_filter g k (i : Int))
    rw [hstep]
    have hkey : ∀ e ∈ g.inboundEdges, ∃ j : Nat, j < k.toNat
        ∧ segId (g.segmentRange k) e.2 = (j : Int) := by
      intro e he
      obtain ⟨h0, hlt⟩ := hid e he
      have hb := tdiv_key_bounds g.num_nodes_ k (e.2).vertexId hk h0 hlt
      rw [← hr] at hb
      refine ⟨((e.2).vertexId.tdiv (g.segmentRange k)).toNat, by omega, ?_⟩
      rw [segId_eq_vertexId_tdiv, Int.toNat_of_nonneg hb.1]
    exact perm_partition_int (fun e => segId (g.segmentRange k) e.2)
      k.toNat g.inboundEdges hkey
  · intro e i j hi hj
    rw [buildPull_eq_filter] at hi hj
    have h1 := (List.mem_filter.mp hi).2
    have h2 := (List.mem_filter.mp hj).2
    simp only [decide_eq_true_eq] at h1 h2
    omega
  · intro i
    rw [buildPull_eq_filter]
    simp only [segId_eq_vertexId_tdiv]

/-- Witness for C2 (amended): in the 4-vertex cycle split into 2 segments,
the concatenation of the two segments' edges is a permutation of the full
inbound edge list. -/
theorem buildPull_partition_by_source_witness :
    (catMap (fun i : Nat => cycle4.buildPullSegmentedGraphs 2 (i : Int))
      (List.range (2 : Int).toNat)).Perm cycle4.inboundEdges :=
  (buildPull_partition_by_source cycle4 2 (by decide) (by decide)).1

/-- C3: the undirected constructor sets the in-index and in-neighbor members
to the very arrays passed for the out direction (same storage, not copies),
hence `in_degree(v) = out_degree(v)` for every vertex and
`num_edges_directed() = 2 * num_edges()`. -/
theorem undirected_in_storage_aliases_out (n : Nat) (index : Arr (Nat → Nat))
    (neighs : Arr (List GDest)) :
    (CSRGraphV.mkUndirected n index neighs).in_index_
        = (CSRGraphV.mkUndirected n index neighs).out_index_
    ∧ (CSRGraphV.mkUndirected n index neighs).in_neighbors_
        = (CSRGraphV.mkUndirected n index neighs).out_neighbors_
    ∧ (∀ v : Nat, (CSRGraphV.mkUndirected n index neighs).in_degree v
        = (CSRGraphV.mkUndirected n index neighs).out_degree v)
    ∧ (CSRGraphV.mkUndirected n index neighs).num_edges_directed
        = 2 * (CSRGraphV.mkUndirected n index neighs).num_edges :=
  ⟨rfl, rfl, fun _ => rfl, rfl⟩

/-- C4 counterexample: an undirected container whose index spans an odd
number of stored entries (one vertex, one stored self-loop entry) has
`Σ_v out_degree(v) = 1` but `num_edges_directed() = 2 * ((1 - 0) / 2) = 0`. -/
theorem sum_out_degrees_ne_directed_count :
    und1.sumOutDegrees = 1 ∧ und1.num_edges_directed = 0
    ∧ und1.sumOutDegrees ≠ und1.num_edges_directed := by decide

/-- C4 (amended): `Σ_v out_degree(v) = num_edges_directed()` holds for every
directed container (both directed constructors), and for every undirected
container whose out-index span is even — as with symmetric storage — since
the undirected constructor computes `num_edges_` as the truncated half of the
span. -/
theorem sum_out_degrees_eq_num_edges_directed :
    (∀ (n : Nat) (oi : Arr (Nat → Nat)) (onb : Arr (List GDest))
        (ii : Arr (Nat → Nat)) (inb : Arr (List GDest)),
      (CSRGraphV.mkDirected n oi onb ii inb).sumOutDegrees
        = (CSRGraphV.mkDirected n oi onb ii inb).num_edges_directed)
    ∧ (∀ (n : Nat) (oi : Arr (Nat → Nat)) (onb : Arr (List GDest))
        (ii : Arr (Nat → Nat)) (inb : Arr (List GDest)) (t : Bool),
      (CSRGraphV.mkDirectedT n oi onb ii inb t).sumOutDegrees
        = (CSRGraphV.mkDirectedT n oi onb ii inb t).num_edges_directed)
    ∧ (∀ (n : Nat) (index : Arr (Nat → Nat)) (neighs : Arr (List GDest)),
      (2 : Int) ∣ ((index.data n : Int) - (index.data 0 : Int)) →
      (CSRGraphV.mkUndirected n index neighs).sumOutDegrees
        = (CSRGraphV.mkUndirected n index neighs).num_edges_directed) := by
  refine ⟨?_, ?_, ?_⟩
  · intro n oi onb ii inb
    rw [sumOutDegrees_telescope]
    simp [CSRGraphV.mkDirected, CSRGraphV.num_edges_directed]
  · intro n oi onb ii inb t
    rw [sumOutDegrees_telescope]
    simp [CSRGraphV.mkDirectedT, CSRGraphV.num_edges_directed]
  · intro n index neighs hdvd
    rw [sumOutDegrees_telescope]
    have h2 : (2 : Int) * (((index.data n : Int)
        - (index.data 0 : Int)).tdiv 2)
        = (index.data n : Int) - (index.data 0 : Int) :=
      Int.mul_tdiv_cancel' hdvd
    simp [CSRGraphV.mkUndirected, CSRGraphV.num_edges_directed, h2]

/-- Witness for C4 (amended): the symmetric 2-vertex undirected container
satisfies `Σ_v out_degree(v) = num_edges_directed()`. -/
theorem sum_out_degrees_eq_num_edges_directed_witness :
    und2.sumOutDegrees = und2.num_edges_directed :=
  sum_out_degrees_eq_num_edges_directed.2.2 2 ⟨0, fun v => v⟩
    ⟨1, [GDest.plain 1, GDest.plain 0]⟩ (by decide)

/-- C8 counterexample: `NodeWeight::operator<` does not compare only the
vertex component — for `a = (v 0, w 1)` and `b = (v 0, w 2)`, `a < b` holds
although `a.v < b.v` does not. -/
theorem nodeWeight_lt_compares_weight :
    NodeWeight.ltB ⟨0, 1⟩ ⟨0, 2⟩ = true
    ∧ ¬((NodeWeight.mk 0 1).v < (NodeWeight.mk 0 2).v) := by decide

/-- C8 (amended): `NodeWeight::operator==` compares only the vertex
components, while `NodeWeight::operator<` is lexicographic — vertex first,
weight as tie-break. -/
theorem nodeWeight_eq_vertex_lt_lex (a b : NodeWeight) :
    (NodeWeight.eqB a b = true ↔ a.v = b.v)
    ∧ (NodeWeight.ltB a b = true
        ↔ (a.v < b.v ∨ (a.v = b.v ∧ a.w < b.w))) := by
  by_cases h : a.v = b.v <;>
    simp [NodeWeight.eqB, NodeWeight.ltB, h]

theorem mapM_readVid_map (l : List Int) :
    (l.map FWord.vid).mapM readVid = some l := by
  induction l with
  | nil => rfl
  | cons a t ih => rw [List.map_cons, List.mapM_cons, ih]; rfl

theorem mapM_readDst_map (l : List GDest) :
    (l.map FWord.dst).mapM readDst = some l := by
  induction l with
  | nil => rfl
  | cons a t ih => rw [List.map_cons, List.mapM_cons, ih]; rfl

theorem mapM_readOff_map (l : List Int) :
    (l.map FWord.off).mapM readOff = some l := by
  induction l with
  | nil => rfl
  | cons a t ih => rw [List.map_cons, List.mapM_cons, ih]; rfl

/-- C5: storing every segment of a registry in the fixed binary layout
(counts, vertex ids, edge destinations, offsets, in that order with no
header) and loading it back reproduces the identical record, for every
segment whose array lengths match its counts (as the allocation pass
guarantees). -/
theorem store_load_roundtrip (regs : List SegmentedGraph)
    (hwf : ∀ sg ∈ regs, sg.graphId.length = sg.numVertices
      ∧ sg.edgeArray.length = sg.numEdges
      ∧ sg.vertexArray.length = sg.numVertices + 1) :
    ∀ sg ∈ regs, loadSegment (storeSegment sg) = some sg := by
  intro sg hsg
  obtain ⟨h1, h2, h3⟩ := hwf sg hsg
  have t1 : sg.graphId.take sg.numVertices = sg.graphId := by
    rw [← h1, List.take_length]
  have t2 : sg.edgeArray.take sg.numEdges = sg.edgeArray := by
    rw [← h2, List.take_length]
  have t3 : sg.vertexArray.take (sg.numVertices + 1) = sg.vertexArray := by
    rw [← h3, List.take_length]
  unfold storeSegment loadSegment
  rw [t1, t2, t3]
  have l1 : (sg.graphId.map FWord.vid).length = sg.numVertices := by
    simpa using h1
  have l2 : (sg.edgeArray.map FWord.dst).length = sg.numEdges := by
    simpa using h2
  have l3 : (sg.vertexArray.map FWord.off).length = sg.numVertices + 1 := by
    simpa using h3
  simp only [List.append_assoc, List.cons_append, List.nil_append]
  rw [List.take_left' l1, List.drop_left' l1, List.take_left' l2,
    List.drop_left' l2]
  rw [← l3, List.take_length]
  rw [mapM_readVid_map, mapM_readDst_map, mapM_readOff_map]
  simp [h1, h2, h3]

/-- A concrete two-vertex segment record with consistent lengths. -/
def segEx : SegmentedGraph :=
  { numVertices := 2
    numEdges := 1
    graphId := [0, 1]
    edgeArray := [GDest.plain 3]
    vertexArray := [0, 1, 1] }

/-- Witness for C5: a concrete one-segment registry round-trips. -/
theorem store_load_roundtrip_witness :
    loadSegment (storeSegment segEx) = some segEx :=
  store_load_roundtrip [segEx] (by decide) segEx (by decide)

/-- C9 counterexample: with an empty catalog (no label ever registered),
`getNumSegments` and `getSegmentedGraph` do not surface an error value to
the caller: `operator[]` default-inserts a null registry pointer under the
label and the call dereferences it (`LookupOutcome.nullDeref` models this
null-pointer dereference, undefined behavior), so neither a result nor a
checkable error signal is returned. -/
theorem unregistered_label_lookup_crashes :
    getNumSegments (fun _ => ⟨0, []⟩) [] "bfs"
      = (LookupOutcome.nullDeref, [("bfs", none)])
    ∧ getSegmentedGraph (fun _ => ⟨0, []⟩) [] "bfs" 0
      = (LookupOutcome.nullDeref, [("bfs", none)])
    ∧ ∀ v : Int, (getNumSegments (fun _ => ⟨0, []⟩) [] "bfs").1
        ≠ LookupOutcome.ok v :=
  ⟨rfl, rfl, fun _ h => LookupOutcome.noConfusion h⟩

/-- C9 (amended): looking up any label that was never registered
default-inserts a null registry pointer into the catalog and dereferences
it — a null-pointer dereference (crash/undefined behavior), not a
distinguishable error signal returned to the caller, and not a result. -/
theorem unregistered_label_lookup_null_deref
    (regHeap : Nat → GraphSegmentsRec) (cat : List (String × Ptr))
    (label : String) (id : Int)
    (h : cat.find? (fun p => p.1 == label) = none) :
    getNumSegments regHeap cat label
      = (LookupOutcome.nullDeref, cat ++ [(label, none)])
    ∧ getSegmentedGraph regHeap cat label id
      = (LookupOutcome.nullDeref, cat ++ [(label, none)])
    ∧ ∀ v, (getNumSegments regHeap cat label).1 ≠ LookupOutcome.ok v := by
  have hm : mapIndex cat label = (none, cat ++ [(label, none)]) := by
    unfold mapIndex
    rw [h]
  refine ⟨?_, ?_, ?_⟩
  · unfold getNumSegments
    rw [hm]
  · unfold getSegmentedGraph
    rw [hm]
  · intro v
    unfold getNumSegments
    rw [hm]
    exact fun hc => LookupOutcome.noConfusion hc

/-- Witness for C9 (amended): the lookup of an unregistered label on an
empty catalog ends in the null dereference and inserts the null entry. -/
theorem unregistered_label_lookup_null_deref_witness :
    getNumSegments (fun _ => ⟨1, []⟩) [] "pull"
      = (LookupOutcome.nullDeref, [("pull", none)]) :=
  (unregistered_label_lookup_null_deref (fun _ => ⟨1, []⟩) [] "pull" 0
    rfl).1

/-- C6 counterexample: move-constructing from a container whose catalog
holds one registry (address 7) leaves the catalog with the moved-from
instance (the destination's catalog is empty), and destroying the moved-from
instance is not a no-op: it deletes the retained registry. -/
theorem move_leaves_catalog_behind :
    CSRGraphP.destruct (CSRGraphP.moveConstruct gEx none none).2 = [7]
    ∧ (CSRGraphP.moveConstruct gEx none none).1.label_to_segment = []
    ∧ gEx.label_to_segment = [("scheme", some 7)] := by decide

/-- C6 (amended): move construction and move assignment transfer the array
pointers, counts and ownership flag to the destination and leave the
moved-from instance with all resource pointer fields nulled and counts -1,
so destroying it frees no arrays; but the segment catalog is not
transferred: the destination's catalog is default-constructed empty (move
construction) or keeps its prior value (move assignment), the moved-from
instance retains its catalog, and destroying the moved-from instance still
deletes the registries of that retained catalog.  The flags and offsets
arrays are likewise not transferred (the move-constructed destination's
fields are uninitialized; the move-assigned destination keeps its old
ones). -/
theorem move_transfers_arrays_not_catalog (g t o : CSRGraphP) (jF jO : Ptr) :
    ((CSRGraphP.moveConstruct g jF jO).1.out_index_ = g.out_index_
      ∧ (CSRGraphP.moveConstruct g jF jO).1.out_neighbors_ = g.out_neighbors_
      ∧ (CSRGraphP.moveConstruct g jF jO).1.in_index_ = g.in_index_
      ∧ (CSRGraphP.moveConstruct g jF jO).1.in_neighbors_ = g.in_neighbors_
      ∧ (CSRGraphP.moveConstruct g jF jO).1.num_nodes_ = g.num_nodes_
      ∧ (CSRGraphP.moveConstruct g jF jO).1.num_edges_ = g.num_edges_
      ∧ (CSRGraphP.moveConstruct g jF jO).1.destructor_free
          = g.destructor_free
      ∧ (CSRGraphP.moveConstruct g jF jO).1.flags_ = jF
      ∧ (CSRGraphP.moveConstruct g jF jO).1.offsets_ = jO
      ∧ (CSRGraphP.moveConstruct g jF jO).1.label_to_segment = [])
    ∧ ((CSRGraphP.moveConstruct g jF jO).2.out_index_ = none
      ∧ (CSRGraphP.moveConstruct g jF jO).2.out_neighbors_ = none
      ∧ (CSRGraphP.moveConstruct g jF jO).2.in_index_ = none
      ∧ (CSRGraphP.moveConstruct g jF jO).2.in_neighbors_ = none
      ∧ (CSRGraphP.moveConstruct g jF jO).2.flags_ = none
      ∧ (CSRGraphP.moveConstruct g jF jO).2.offsets_ = none
      ∧ (CSRGraphP.moveConstruct g jF jO).2.num_nodes_ = -1
      ∧ (CSRGraphP.moveConstruct g jF jO).2.num_edges_ = -1
      ∧ (CSRGraphP.moveConstruct g jF jO).2.label_to_segment
          = g.label_to_segment)
    ∧ CSRGraphP.destruct (CSRGraphP.moveConstruct g jF jO).2
        = (if g.destructor_free ∧ ¬g.is_transpose_
          then g.label_to_segment.filterMap (fun p => p.2) else [])
    ∧ ((CSRGraphP.moveAssign t o).1.out_index_ = o.out_index_
      ∧ (CSRGraphP.moveAssign t o).1.out_neighbors_ = o.out_neighbors_
      ∧ (CSRGraphP.moveAssign t o).1.in_index_ = o.in_index_
      ∧ (CSRGraphP.moveAssign t o).1.in_neighbors_ = o.in_neighbors_
      ∧ (CSRGraphP.moveAssign t o).1.num_nodes_ = o.num_nodes_
      ∧ (CSRGraphP.moveAssign t o).1.num_edges_ = o.num_edges_
      ∧ (CSRGraphP.moveAssign t o).1.destructor_free = o.destructor_free
      ∧ (CSRGraphP.moveAssign t o).1.flags_ = t.flags_
      ∧ (CSRGraphP.moveAssign t o).1.offsets_ = t.offsets_
      ∧ (CSRGraphP.moveAssign t o).1.label_to_segment = t.label_to_segment)
    ∧ ((CSRGraphP.moveAssign t o).2.1.out_index_ = none
      ∧ (CSRGraphP.moveAssign t o).2.1.out_neighbors_ = none
      ∧ (CSRGraphP.moveAssign t o).2.1.in_index_ = none
      ∧ (CSRGraphP.moveAssign t o).2.1.in_neighbors_ = none
      ∧ (CSRGraphP.moveAssign t o).2.1.flags_ = none
      ∧ (CSRGraphP.moveAssign t o).2.1.offsets_ = none
      ∧ (CSRGraphP.moveAssign t o).2.1.num_nodes_ = -1
      ∧ (CSRGraphP.moveAssign t o).2.1.num_edges_ = -1
      ∧ (CSRGraphP.moveAssign t o).2.1.label_to_segment
          = o.label_to_segment)
    ∧ CSRGraphP.destruct (CSRGraphP.moveAssign t o).2.1
        = (if o.destructor_free ∧ ¬o.is_transpose_
          then o.label_to_segment.filterMap (fun p => p.2) else []) := by
  refine ⟨⟨rfl, rfl, rfl, rfl, rfl, rfl, rfl, rfl, rfl, rfl⟩,
    ⟨rfl, rfl, rfl, rfl, rfl, rfl, rfl, rfl, rfl⟩, ?_,
    ⟨rfl, rfl, rfl, rfl, rfl, rfl, rfl, rfl, rfl, rfl⟩,
    ⟨rfl, rfl, rfl, rfl, rfl, rfl, rfl, rfl, rfl⟩, ?_⟩
  · unfold CSRGraphP.destruct CSRGraphP.releaseResources
      CSRGraphP.moveConstruct
    rcases hdf : g.destructor_free <;> rcases hit : g.is_transpose_ <;>
      rcases hd : g.directed_ <;> simp
  · unfold CSRGraphP.destruct CSRGraphP.releaseResources CSRGraphP.moveAssign
    rcases hdf : o.destructor_free <;> rcases hit : o.is_transpose_ <;>
      rcases hd : o.directed_ <;> simp

/-- C7 counterexample: the copy constructor does not share the flags and
offsets arrays — those members are absent from its initializer list and left
uninitialized, so a copy of `gEx` (flags array at address 5, offsets at 6)
need not alias them; the index and neighbor arrays are shared. -/
theorem copy_does_not_share_flags :
    (CSRGraphP.copyConstruct gEx (some 99) (some 98)).1.flags_ ≠ gEx.flags_
    ∧ (CSRGraphP.copyConstruct gEx (some 99) (some 98)).1.offsets_
        ≠ gEx.offsets_
    ∧ (CSRGraphP.copyConstruct gEx (some 99) (some 98)).1.out_index_
        = gEx.out_index_ := by decide

/-- C7 (amended): copy construction produces a non-owning alias sharing the
index and neighbor arrays of the source (the flags and offsets members are
left uninitialized, not shared); destroying the copy releases nothing since
its ownership flag is false, and the source is returned unmodified, so it
alone remains responsible for release. -/
theorem copy_is_nonowning_alias (g : CSRGraphP) (jF jO : Ptr) :
    (CSRGraphP.copyConstruct g jF jO).1.out_index_ = g.out_index_
    ∧ (CSRGraphP.copyConstruct g jF jO).1.out_neighbors_ = g.out_neighbors_
    ∧ (CSRGraphP.copyConstruct g jF jO).1.in_index_ = g.in_index_
    ∧ (CSRGraphP.copyConstruct g jF jO).1.in_neighbors_ = g.in_neighbors_
    ∧ (CSRGraphP.copyConstruct g jF jO).1.flags_ = jF
    ∧ (CSRGraphP.copyConstruct g jF jO).1.offsets_ = jO
    ∧ (CSRGraphP.copyConstruct g jF jO).1.destructor_free = false
    ∧ CSRGraphP.destruct (CSRGraphP.copyConstruct g jF jO).1 = []
    ∧ (CSRGraphP.copyConstruct g jF jO).2 = g :=
  ⟨rfl, rfl, rfl, rfl, rfl, rfl, rfl, rfl, rfl⟩

/-- C10: a default-constructed container, a move-constructed-from container
and a move-assigned-from container all report the inert state through the
sentinel value -1 from `num_nodes()` and `num_edges()` (a plain return, not
an error signal). -/
theorem inert_state_reports_minus_one (g t o : CSRGraphP) (jF jO jO2 : Ptr) :
    (CSRGraphP.mkDefault jO).num_nodes = -1
    ∧ (CSRGraphP.mkDefault jO).num_edges = -1
    ∧ (CSRGraphP.moveConstruct g jF jO2).2.num_nodes = -1
    ∧ (CSRGraphP.moveConstruct g jF jO2).2.num_edges = -1
    ∧ (CSRGraphP.moveAssign t o).2.1.num_nodes = -1
    ∧ (CSRGraphP.moveAssign t o).2.1.num_edges = -1 :=
  ⟨rfl, rfl, rfl, rfl, rfl, rfl⟩

end Graphit
